import Mathlib

/-!
# Verification of the ProtoX GDK sprite-editor core

A shallow embedding of the sprite document model and its editing,
quantization and persistence operations, translated from the Python
sources (`gdk/palette.py`, `gui/sprite_editor/core.py`,
`gui/sprite_editor/canvas_view.py`, `gui/sprite_editor/io_manager.py`,
`gui/sprite_editor/sprite_editor.py`, `gui/sprite_editor/metadata.py`),
together with proofs about the embedded operations.

Modelling conventions:
* Python `int` is `Int`; pixel grids are `List (List Int)` with the
  sentinel `-1` for transparency.
* Python `dict` lookup with `.get(k, d)` on the JSON level is modelled by
  records whose fields are `Option`-valued (`none` = key absent).
* Python `float` distances are modelled exactly.  The weighted quantizer
  is embedded as the precise IEEE-754 binary64 computation (`fround` /
  `floatWeightedDist`): every intermediate double is a dyadic rational,
  carried as an integer at a fixed power-of-two scale, and each
  operation rounds to 53 significant bits with ties to even, so float
  comparisons are integer comparisons — in particular ties of the exact
  weighted distance can be broken by rounding, as the program's are.
  The palette remapper compares squared integer distances (the source
  compares the square roots, and real square root is strictly monotone,
  so the argmin and every strict/nonstrict comparison agree).
-/

namespace ProtoX

/-- The curated 64-color palette `default_palette` from `gdk/palette.py`,
entry for entry.  Each entry is `[r, g, b, a]`. -/
def default_palette : List (List Int) :=
  [ [0, 0, 0, 0], [0, 0, 0, 255],
    [255, 255, 255, 255],
    [230, 230, 230, 255],
    [128, 128, 128, 255],
    [64, 64, 64, 255],
    [33, 33, 33, 255],
    [16, 16, 16, 255],
    [206, 28, 36, 255], [255, 89, 0, 255],
    [255, 140, 0, 255], [255, 185, 90, 255],
    [255, 220, 180, 255], [180, 60, 30, 255],
    [120, 30, 20, 255], [80, 20, 10, 255],
    [255, 236, 39, 255], [255, 200, 0, 255],
    [220, 180, 60, 255], [180, 150, 30, 255],
    [0, 163, 104, 255], [0, 180, 60, 255],
    [40, 100, 30, 255], [10, 50, 10, 255],
    [0, 121, 241, 255], [99, 155, 255, 255],
    [134, 120, 252, 255], [80, 80, 200, 255],
    [118, 66, 138, 255], [233, 0, 120, 255],
    [244, 0, 161, 255], [180, 100, 220, 255],
    [143, 86, 59, 255], [180, 110, 60, 255],
    [210, 150, 100, 255], [230, 190, 140, 255],
    [255, 210, 160, 255], [120, 90, 60, 255],
    [80, 60, 40, 255], [50, 35, 20, 255],
    [60, 200, 60, 255], [90, 230, 90, 255],
    [120, 255, 120, 255], [180, 255, 180, 255],
    [40, 150, 40, 255], [25, 90, 25, 255],
    [15, 60, 15, 255], [0, 40, 0, 255],
    [0, 190, 255, 255], [60, 210, 255, 255],
    [120, 230, 255, 255], [180, 250, 255, 255],
    [0, 140, 200, 255], [0, 90, 150, 255],
    [0, 60, 110, 255], [0, 30, 70, 255],
    [255, 255, 200, 255], [255, 255, 150, 255],
    [255, 240, 100, 255], [255, 200, 60, 255],
    [255, 170, 200, 255], [255, 150, 255, 255],
    [180, 255, 255, 255], [120, 220, 255, 255] ]

/-- The brown base colors used while generating `extended_palette_256`. -/
def vgaBrowns : List (List Int) :=
  [ [60, 40, 20], [90, 60, 30], [120, 80, 40],
    [150, 100, 50], [180, 120, 60], [210, 150, 90],
    [240, 180, 120], [255, 210, 150] ]

/-- Python `range(0, 256, 16)` as a list of `Int`. -/
def range16 : List Int := (List.range 16).map fun k => (16 * k : Int)

/-- The procedurally generated palette `extended_palette_256` from
`gdk/palette.py`: each Python append loop becomes one mapped list,
concatenated in the source's order. -/
def extended_palette_256 : List (List Int) :=
  ((List.range 16).map fun i =>
    let g : Int := ((i : Int) * 255) / 15
    [g, g, g, 255])
  ++ (range16.map fun r => [r, 0, 0, 255])
  ++ (range16.map fun o => [255, o, 0, 255])
  ++ (range16.map fun y => [255, 255, y, 255])
  ++ (range16.map fun g => [0, g, 0, 255])
  ++ (range16.map fun g => [0, g, 128, 255])
  ++ (range16.map fun g => [0, g, 255, 255])
  ++ (range16.map fun b => [0, 0, b, 255])
  ++ (range16.map fun b => [0, 128, b, 255])
  ++ (range16.map fun b => [0, 255, b, 255])
  ++ (range16.map fun m => [m, 0, m, 255])
  ++ (range16.map fun m => [128, 0, m, 255])
  ++ (range16.map fun m => [255, 0, m, 255])
  ++ (vgaBrowns.flatMap fun c =>
      [ [c.getD 0 0, c.getD 1 0, c.getD 2 0, 255],
        [min 255 (c.getD 0 0 + 30), min 255 (c.getD 1 0 + 20),
         min 255 (c.getD 2 0 + 10), 255] ])
  ++ ((List.range 64).map fun i =>
      let v : Int := 192 + ((i : Int) * 63) / 64
      [v, 255, v, 255])
  ++ ((List.range 16).map fun i => [0, 0, 0, (i : Int) * 16])

/-- The registry `PALETTES` from `gdk/palette.py`; `none` models a missing
dictionary key. -/
def PALETTES (n : String) : Option (List (List Int)) :=
  if n = "ProtoX 64" then some default_palette
  else if n = "VGA 256" then some extended_palette_256
  else none

/-- `SpriteFrame` from `core.py`: a single frame, a 2D matrix of palette
indices. -/
structure SpriteFrame where
  pixels : List (List Int)
deriving DecidableEq, Repr

/-- `SpriteDoc` from `core.py`.  The Python dataclass defaults `tags` and
`properties` to `None`, so those two fields are `Option`-valued;
`properties` is a `dict[str, Any]` holding boolean flags, modelled as an
association list. -/
structure SpriteDoc where
  width : Int
  height : Int
  palette : List (List Int)
  frames : List SpriteFrame
  name : String := "unnamed"
  fps : Int := 10
  loop : Bool := true
  author : String := "unknown"
  tags : Option (List String) := none
  properties : Option (List (String × Bool)) := none
  palette_name : String := "ProtoX 64"
deriving DecidableEq, Repr

/-- The default `properties` dictionary used by `SpriteDoc.empty` and
`SpriteDoc.from_json`. -/
def defaultProperties : List (String × Bool) :=
  [("collision", false), ("static", false),
   ("background", false), ("player", false)]

/-- The JSON-compatible dict produced by `SpriteDoc.to_json`: all eleven
keys are always present. -/
structure SpriteJson where
  name : String
  width : Int
  height : Int
  fps : Int
  loop : Bool
  author : String
  tags : List String
  palette_name : String
  palette : List (List Int)
  frames : List (List (List Int))
  properties : List (String × Bool)
deriving DecidableEq, Repr

/-- An arbitrary JSON dict handed to `SpriteDoc.from_json`: every field is
optional (`none` = key absent).  Values of the wrong JSON type are outside
this model; only presence/absence and well-typed values are represented. -/
structure JsonDict where
  name : Option String := none
  width : Option Int := none
  height : Option Int := none
  fps : Option Int := none
  loop : Option Bool := none
  author : Option String := none
  tags : Option (List String) := none
  palette_name : Option String := none
  palette : Option (List (List Int)) := none
  frames : Option (List (List (List Int))) := none
  properties : Option (List (String × Bool)) := none
deriving DecidableEq, Repr

/-- View the total dict written by `to_json` as a partial dict (every key
present). -/
def SpriteJson.toDict (j : SpriteJson) : JsonDict :=
  { name := some j.name, width := some j.width, height := some j.height,
    fps := some j.fps, loop := some j.loop, author := some j.author,
    tags := some j.tags, palette_name := some j.palette_name,
    palette := some j.palette, frames := some j.frames,
    properties := some j.properties }

/-- `SpriteDoc.to_json` from `core.py`.  Python `self.tags or []` and
`self.properties or {}` map `None` (and the falsy empty collection) to the
empty collection. -/
def SpriteDoc.to_json (doc : SpriteDoc) : SpriteJson :=
  { name := doc.name, width := doc.width, height := doc.height,
    fps := doc.fps, loop := doc.loop, author := doc.author,
    tags := doc.tags.getD [], palette_name := doc.palette_name,
    palette := doc.palette,
    frames := doc.frames.map SpriteFrame.pixels,
    properties := doc.properties.getD [] }

/-- `SpriteDoc.from_json` from `core.py`.  `d['width']`, `d['height']` and
`d['frames']` are mandatory subscripts (a missing key raises `KeyError`,
modelled as `none`); every other key is read with `.get` and a default.
The palette is resolved against the registry by `palette_name` first, the
embedded `palette` array (default `[]`) is only a fallback. -/
def SpriteDoc.from_json (d : JsonDict) : Option SpriteDoc :=
  let palette_name := d.palette_name.getD "ProtoX 64"
  let palette := match PALETTES palette_name with
    | some p => p
    | none => d.palette.getD []
  match d.width, d.height, d.frames with
  | some w, some h, some fs =>
      some { name := d.name.getD "unnamed", width := w, height := h,
             fps := d.fps.getD 10, loop := d.loop.getD true,
             author := d.author.getD "unknown", tags := some (d.tags.getD []),
             palette := palette, palette_name := palette_name,
             frames := fs.map (fun m => ⟨m⟩),
             properties := some (d.properties.getD defaultProperties) }
  | _, _, _ => none

/-! ## Flood fill (`CanvasView._flood_fill`, `canvas_view.py`) -/

/-- Read `matrix[y][x]`; reads outside the matrix yield a default (in the
algorithms below, guards keep every real access in range). -/
def getCell (m : List (List Int)) (x y : Nat) : Int :=
  (m.getD y []).getD x 0

/-- Write `matrix[y][x] = v` (out-of-range writes change nothing). -/
def setCell (m : List (List Int)) (x y : Nat) (v : Int) : List (List Int) :=
  m.set y ((m.getD y []).set x v)

/-- Number of cells holding `target` — the variant of the fill loop: each
iteration pops one stack entry and pushes only after overwriting a
`target` cell, so `5 * countTarget + stack length` strictly decreases. -/
def countTarget (target : Int) (m : List (List Int)) : Nat :=
  (m.map fun row => row.countP fun v => v == target).sum

/-- The `while stack:` loop of `CanvasView._flood_fill`.  The Python list
pops from its tail, so the head of the Lean list is the top of the stack
and the four pushed neighbours appear in reverse of the `extend` order.
The `fuel` argument bounds the loop's variant (the source loop needs no
fuel because the variant argument above proves its termination; the
caller passes fuel exceeding the variant, so the bound is never hit). -/
def ffAux (w h : Nat) (target repl : Int) :
    Nat → List (List Int) → List (Int × Int) → List (List Int)
  | 0, m, _ => m
  | _ + 1, m, [] => m
  | fuel + 1, m, (cx, cy) :: rest =>
    if cx < 0 ∨ cy < 0 ∨ (w : Int) ≤ cx ∨ (h : Int) ≤ cy then
      ffAux w h target repl fuel m rest
    else if getCell m cx.toNat cy.toNat ≠ target then
      ffAux w h target repl fuel m rest
    else
      ffAux w h target repl fuel (setCell m cx.toNat cy.toNat repl)
        ((cx, cy - 1) :: (cx, cy + 1) :: (cx - 1, cy) :: (cx + 1, cy) :: rest)

/-- `CanvasView._flood_fill(matrix, x, y, target_color, replacement_color)`:
no-op when target equals replacement, otherwise the stack loop starting
from `[(x, y)]`, with `height, width = len(matrix), len(matrix[0])`. -/
def flood_fill (m : List (List Int)) (x y : Int) (target repl : Int) :
    List (List Int) :=
  if target = repl then m
  else ffAux (m.headD []).length m.length target repl
    (5 * countTarget target m + 1) m [(x, y)]

/-- The bounds check of the fill loop, as a predicate on a coordinate. -/
def InBounds (w h : Nat) (c : Int × Int) : Prop :=
  0 ≤ c.1 ∧ 0 ≤ c.2 ∧ c.1 < (w : Int) ∧ c.2 < (h : Int)

instance (w h : Nat) (c : Int × Int) : Decidable (InBounds w h c) := by
  unfold InBounds; infer_instance

/-- Value of a cell addressed by a (nonnegative) coordinate pair. -/
def cellVal (m : List (List Int)) (c : Int × Int) : Int :=
  getCell m c.1.toNat c.2.toNat

/-- 4-connectivity: one step up, down, left or right (no diagonals). -/
def Adj (c d : Int × Int) : Prop :=
  d = (c.1 + 1, c.2) ∨ d = (c.1 - 1, c.2) ∨
  d = (c.1, c.2 + 1) ∨ d = (c.1, c.2 - 1)

instance (c d : Int × Int) : Decidable (Adj c d) := by
  unfold Adj; infer_instance

/-- The 4-connected component of the start cell `s` among in-bounds cells
whose value in `m` is `target`. -/
inductive Reach (w h : Nat) (m : List (List Int)) (target : Int)
    (s : Int × Int) : Int × Int → Prop
  | base : InBounds w h s → cellVal m s = target → Reach w h m target s s
  | step {c d} : Reach w h m target s c → Adj c d → InBounds w h d →
      cellVal m d = target → Reach w h m target s d

/-- A cell the fill loop would overwrite: in bounds and target-valued. -/
def OkCell (w h : Nat) (m : List (List Int)) (target : Int)
    (c : Int × Int) : Prop :=
  InBounds w h c ∧ cellVal m c = target

/-- A 4-connected path staying on in-bounds target-valued cells
(endpoints included). -/
inductive PathIn (w h : Nat) (m : List (List Int)) (target : Int) :
    Int × Int → Int × Int → Prop
  | refl {c} : OkCell w h m target c → PathIn w h m target c c
  | tail {a c d} : PathIn w h m target a c → Adj c d →
      OkCell w h m target d → PathIn w h m target a d

/-- `c` is connected to some pending stack entry through target-valued
cells of the current grid. -/
def ReachStk (w h : Nat) (m : List (List Int)) (target : Int)
    (stack : List (Int × Int)) (c : Int × Int) : Prop :=
  ∃ e ∈ stack, PathIn w h m target e c

/-! ## Nearest-color quantization (`SpriteIOManager.find_closest_color`,
`io_manager.py`) -/

/-- The update test of the best-candidate loops: `dist < best_dist`,
where the initial `best_dist = float('inf')` is `none` (every finite
distance beats it). -/
def betterThan {α : Type} [LinearOrder α] (d : α) : Option α → Bool
  | none => true
  | some b => decide (d < b)

/-- The common shape of both nearest-color `for` loops: scan a list of
distances keeping the index of the current strict minimum (`best_idx`
starts at 0, ties keep the earlier index because the comparison is a
strict `<`). -/
def bestLoop {α : Type} [LinearOrder α] : List α → Nat → Nat → Option α → Nat
  | [], _, bi, _ => bi
  | d :: rest, i, bi, bd =>
    if betterThan d bd then bestLoop rest (i + 1) i (some d)
    else bestLoop rest (i + 1) bi bd

/-- Fuel-bounded floor of log2 (index of the highest set bit), structural
so the kernel can evaluate it; correct whenever `n < 2 ^ fuel`, and in the
distance pipeline below every magnitude stays far below `2 ^ 300`. -/
def log2fuel : Nat → Nat → Nat
  | 0, _ => 0
  | fuel + 1, n => if 2 ≤ n then log2fuel fuel (n / 2) + 1 else 0

/-- IEEE-754 binary64 rounding (round to nearest, ties to even) of an
integer to 53 significant bits, keeping the trailing zeros in place.
Every value of the Python distance computation is a dyadic rational; at a
fixed power-of-two scale each is an integer, and because scaling by a
power of two commutes with binary rounding, one double operation on
scaled values is an exact integer operation followed by `fround` at the
result's scale.  Exponent-range effects (overflow, subnormals) cannot
occur for 8-bit color channels, so they are not modelled. -/
def fround (n : Int) : Int :=
  if n = 0 then 0
  else
    let a := n.natAbs
    let b := log2fuel 300 a
    if b ≤ 52 then n
    else
      let s := b - 52
      let q := a / 2 ^ s
      let r := a % 2 ^ s
      let half := 2 ^ (s - 1)
      let q2 := if r < half then q
        else if half < r then q + 1
        else if q % 2 = 0 then q else q + 1
      (if n < 0 then -(q2 : Int) else (q2 : Int)) * 2 ^ s

/-- The weighted squared distance of `find_closest_color`, computed in
IEEE-754 binary64 exactly as CPython evaluates
`(dr*0.3)**2 + (dg*0.59)**2 + (db*0.11)**2`: the double literals are
0.3 = 5404319552844595/2^54, 0.59 = 5314247560297185/2^53 and
0.11 = 7926335344172073/2^56; each multiplication, squaring (`** 2` is
one correctly rounded square) and left-associated addition rounds once.
Values are carried as integers at the scale noted on each line (the
final result is scaled by 2^112), so double comparisons are exactly
integer comparisons. -/
def floatWeightedDist (q : Int × Int × Int) (p : List Int) : Int :=
  let dr := q.1 - p.getD 0 0
  let dg := q.2.1 - p.getD 1 0
  let db := q.2.2 - p.getD 2 0
  let t1 := fround (dr * 5404319552844595)
  let t2 := fround (dg * 5314247560297185)
  let t3 := fround (db * 7926335344172073)
  let s1 := fround (t1 * t1)
  let s2 := fround (t2 * t2)
  let s3 := fround (t3 * t3)
  fround (fround (s1 * 16 + s2 * 64) + s3)

/-- The exact real-arithmetic weighted squared distance with the weights
read as the exact rationals 3/10, 59/100, 11/100 — the idealized
distance the original tie claim refers to.  The program computes
`floatWeightedDist`; double rounding can break ties that are exact at
this distance (compare `C4_counterexample`). -/
def exactWeightedDist (q : Int × Int × Int) (p : List Int) : ℚ :=
  let dr : ℚ := ((q.1 - p.getD 0 0 : Int) : ℚ)
  let dg : ℚ := ((q.2.1 - p.getD 1 0 : Int) : ℚ)
  let db : ℚ := ((q.2.2 - p.getD 2 0 : Int) : ℚ)
  (dr * (3 / 10)) ^ 2 + (dg * (59 / 100)) ^ 2 + (db * (11 / 100)) ^ 2

/-- `SpriteIOManager.find_closest_color(rgba)`: alpha below 32 short
circuits to the transparent sentinel -1; otherwise the strict-minimum
scan over the palette (the loop reads each entry as `(r2, g2, b2, _a2)`,
so alpha never enters the distance), with the per-entry distance
computed in binary64. -/
def find_closest_color (palette : List (List Int)) :
    Int × Int × Int × Int → Int
  | (r1, g1, b1, a1) =>
    if a1 < 32 then -1
    else (bestLoop (palette.map (floatWeightedDist (r1, g1, b1))) 0 0 none : Nat)

/-! ## Palette remap (`SpriteEditor._remap_palette`, `sprite_editor.py`) -/

/-- `p[:3]` of a palette entry `[r, g, b, a]`. -/
def rgb3 (p : List Int) : Int × Int × Int :=
  (p.getD 0 0, p.getD 1 0, p.getD 2 0)

/-- The remap's `color_distance` compares `(dr² + dg² + db²) ** 0.5`;
real square root is strictly monotone on nonnegative reals and these
squared distances are integers small enough that no two distinct values
round to the same float, so the squared distance induces exactly the
same comparisons. -/
def color_distance_sq (c1 c2 : Int × Int × Int) : Int :=
  (c1.1 - c2.1) ^ 2 + (c1.2.1 - c2.2.1) ^ 2 + (c1.2.2 - c2.2.2) ^ 2

/-- Inner loop of `_remap_palette`: nearest entry of `new_palette` to the
color `c`, unweighted, ties to the lowest index. -/
def remap_best (new_palette : List (List Int)) (c : Int × Int × Int) : Nat :=
  bestLoop (new_palette.map fun p => color_distance_sq c (rgb3 p)) 0 0 none

/-- The precomputed `mapping` dict of `_remap_palette`, keyed by the old
palette index 0, 1, …. -/
def remap_mapping (old_palette new_palette : List (List Int)) : List Nat :=
  old_palette.map fun p => remap_best new_palette (rgb3 p)

/-- Per-cell remap step: `if val < 0 or val >= len(old_palette): continue`
else `row[x] = mapping.get(val, 0)`. -/
def remap_cell (old_palette new_palette : List (List Int)) (v : Int) : Int :=
  if v < 0 ∨ (old_palette.length : Int) ≤ v then v
  else ((remap_mapping old_palette new_palette).getD v.toNat 0 : Nat)

/-- `SpriteEditor._remap_palette(old_palette, new_palette)` acting on the
editor's document: every cell of every frame is rewritten through the
precomputed mapping, then the document's palette becomes `new_palette`
(the caller passes `old_palette = doc.palette`). -/
def remap_palette (old_palette new_palette : List (List Int))
    (doc : SpriteDoc) : SpriteDoc :=
  { doc with
    frames := doc.frames.map fun f =>
      ⟨f.pixels.map fun row => row.map (remap_cell old_palette new_palette)⟩,
    palette := new_palette }

/-! ## Resize (`SpriteEditor.resize_grid`) -/

/-- One frame of `resize_grid`: a fresh `h × w` grid of -1 whose
top-left `min h oldH × min w oldW` rectangle is copied from `px`. -/
def resize_frame (oldW oldH w h : Nat) (px : List (List Int)) :
    List (List Int) :=
  (List.range h).map fun y => (List.range w).map fun x =>
    if y < min h oldH ∧ x < min w oldW then getCell px x y else -1

/-- `SpriteEditor.resize_grid(w, h)`: every frame is rebuilt, then the
document's dimensions are updated (Python `range` of a negative bound is
empty, matching `Int.toNat`). -/
def resize_grid (w h : Int) (doc : SpriteDoc) : SpriteDoc :=
  { doc with
    width := w
    height := h
    frames := doc.frames.map fun f =>
      ⟨resize_frame doc.width.toNat doc.height.toNat w.toNat h.toNat
        f.pixels⟩ }

/-! ## Frame deletion (`SpriteEditor._delete_frame`) -/

/-- `SpriteEditor._delete_frame`: refuse when a single frame remains,
else drop the active frame and clamp the active index to
`max(0, active - 1)` (truncated subtraction on `Nat`, since the active
index is nonnegative). -/
def delete_frame (frames : List SpriteFrame) (active : Nat) :
    List SpriteFrame × Nat :=
  if frames.length ≤ 1 then (frames, active)
  else (frames.eraseIdx active, active - 1)

/-! ## Metadata panel (`MetadataPanel.apply_metadata`, `metadata.py`) -/

/-- Python `str.strip()` on a character list: drop whitespace from both
ends. -/
def pyStrip (cs : List Char) : List Char :=
  ((cs.dropWhile Char.isWhitespace).reverse.dropWhile Char.isWhitespace).reverse

/-- Python `str.strip()`. -/
def py_strip (s : String) : String :=
  ⟨pyStrip s.data⟩

/-- Value of a digit string (callers have checked every char is a
digit). -/
def digitsToNat (cs : List Char) : Nat :=
  cs.foldl (fun n c => 10 * n + (c.toNat - 48)) 0

/-- Python `int(s)` on a string: strip surrounding whitespace, then an
optional sign followed by one or more digits (underscore separators are
out of scope); `none` models the `ValueError`. -/
def pyParseInt (s : String) : Option Int :=
  match pyStrip s.data with
  | [] => none
  | c :: cs =>
    let ds := if c = '-' ∨ c = '+' then cs else c :: cs
    if ds ≠ [] ∧ ds.all Char.isDigit then
      some (if c = '-' then -(digitsToNat ds : Int) else (digitsToNat ds : Int))
    else none

/-- Python `str.split(',')` on a character list; splitting the empty
string yields `[""]`, as in Python. -/
def splitCommasAux : List Char → List (List Char)
  | [] => [[]]
  | c :: cs =>
    let r := splitCommasAux cs
    if c = ',' then [] :: r
    else match r with
      | a :: as => (c :: a) :: as
      | [] => [[c]]

/-- Python `str.split(',')`. -/
def py_split_commas (s : String) : List String :=
  (splitCommasAux s.data).map fun cs => ⟨cs⟩

/-- The widget state of the metadata sidebar: `none` models a widget
that was never built (`if self.meta_name:` guards), entry widgets hold
raw strings, the checkbox variables hold booleans. -/
structure MetadataPanel where
  meta_name : Option String := none
  meta_author : Option String := none
  meta_fps : Option String := none
  meta_loop : Option Bool := none
  meta_tags : Option String := none
  prop_collision : Option Bool := none
  prop_static : Option Bool := none
  prop_background : Option Bool := none
  prop_player : Option Bool := none
  suspend_autoapply : Bool := false
deriving DecidableEq, Repr

/-- The tags line: strip, split on commas, keep the stripped nonempty
pieces (`[t.strip() for t in tags_raw.split(',') if t.strip()]`). -/
def parse_tags (s : String) : List String :=
  (py_split_commas (py_strip s)).filterMap fun t =>
    if py_strip t = "" then none else some (py_strip t)

/-- `MetadataPanel.apply_metadata`, field for field in source order:
name and author first, then fps (an unparsable entry only logs a warning
and leaves fps untouched), then loop, tags, and finally the properties
dict, which is always rebuilt from the checkbox variables. -/
def apply_metadata (p : MetadataPanel) (doc : SpriteDoc) : SpriteDoc :=
  if p.suspend_autoapply then doc
  else
    let d1 := match p.meta_name with
      | some s => { doc with name := py_strip s }
      | none => doc
    let d2 := match p.meta_author with
      | some s => { d1 with author := py_strip s }
      | none => d1
    let d3 := match p.meta_fps with
      | some s =>
        match pyParseInt s with
        | some n => { d2 with fps := n }
        | none => d2
      | none => d2
    let d4 := match p.meta_loop with
      | some b => { d3 with loop := b }
      | none => d3
    let d5 := match p.meta_tags with
      | some s => { d4 with tags := some (parse_tags s) }
      | none => d4
    { d5 with properties := some (
        [("collision", p.prop_collision.getD false),
         ("static", p.prop_static.getD false),
         ("background", p.prop_background.getD false),
         ("player", p.prop_player.getD false)]) }

/-! ## Playback (`SpriteEditor._play_once` / `_play_loop` / `_loop_step`
/ `_stop_playback`) -/

/-- A pending Tk `after` callback of the playback machinery: either a
`step(i)` closure of `_play_once` (capturing the starting frame) or a
`_loop_step(i)` call. -/
inductive PlayEvent where
  | onceStep (start i : Nat)
  | loopStep (i : Nat)
deriving DecidableEq, Repr

/-- Playback-relevant editor state: the frame count, the `_is_playing`
guard flag (`getattr` default `False`), the active frame index and the
queue of pending `after` callbacks. -/
structure PlayerState where
  frameCount : Nat
  is_playing : Bool
  active_frame : Nat
  pending : List PlayEvent
deriving DecidableEq, Repr

/-- The `step(i)` closure inside `_play_once`: show frame
`(start + i) % n`; schedule `step(i+1)` while `i + 1 < n`, else restore
the starting frame. -/
def once_step (s : PlayerState) (start i : Nat) : PlayerState :=
  let s1 := { s with active_frame := (start + i) % s.frameCount }
  if i + 1 < s.frameCount then
    { s1 with pending := s1.pending ++ [PlayEvent.onceStep start (i + 1)] }
  else
    { s1 with active_frame := start }

/-- `_play_once`: bail out on zero or one frame, otherwise run `step(0)`
immediately.  Note: no `_is_playing` check and no flag set. -/
def play_once (s : PlayerState) : PlayerState :=
  if s.frameCount ≤ 1 then s
  else once_step s s.active_frame 0

/-- `_loop_step(i)`: stop silently when the flag was cleared, else show
frame `i % n` and schedule the next step. -/
def loop_step (s : PlayerState) (i : Nat) : PlayerState :=
  if s.is_playing = false then s
  else
    let s1 := { s with active_frame := i % s.frameCount }
    { s1 with pending := s1.pending ++ [PlayEvent.loopStep (s1.active_frame + 1)] }

/-- `_play_once` already running is recorded by a pending `step`
callback. -/
def OnceActive (s : PlayerState) : Prop :=
  ∃ start i, PlayEvent.onceStep start i ∈ s.pending

/-- `_play_loop` running is recorded by the `_is_playing` flag. -/
def LoopActive (s : PlayerState) : Prop :=
  s.is_playing = true

instance (s : PlayerState) : Decidable (LoopActive s) := by
  unfold LoopActive; infer_instance

/-- `_play_loop`: guarded by `_is_playing`; when clear, set it and run
`_loop_step(0)` immediately. -/
def play_loop (s : PlayerState) : PlayerState :=
  if s.is_playing then s
  else loop_step { s with is_playing := true } 0

/-- `_stop_playback`. -/
def stop_playback (s : PlayerState) : PlayerState :=
  { s with is_playing := false }

/-- Deliver one pending `after` callback. -/
def run_event (s : PlayerState) : PlayEvent → PlayerState
  | PlayEvent.onceStep start i => once_step s start i
  | PlayEvent.loopStep i => loop_step s i

/-! ## Theorems -/

theorem PathIn.ok_left {w h m target} {a c : Int × Int}
    (p : PathIn w h m target a c) : OkCell w h m target a := by
  induction p with
  | refl hc => exact hc
  | tail _ _ _ ih => exact ih

theorem PathIn.ok_right {w h m target} {a c : Int × Int}
    (p : PathIn w h m target a c) : OkCell w h m target c := by
  induction p with
  | refl hc => exact hc
  | tail _ _ hd _ => exact hd

theorem Reach.inBounds {w h m target s} {c : Int × Int}
    (r : Reach w h m target s c) : InBounds w h c := by
  induction r with
  | base hs _ => exact hs
  | step _ _ hd _ _ => exact hd

theorem Reach.cellVal_eq {w h m target s} {c : Int × Int}
    (r : Reach w h m target s c) : cellVal m c = target := by
  induction r with
  | base _ hv => exact hv
  | step _ _ _ hv _ => exact hv

/-- Every reachable cell has a target-valued path from the start. -/
theorem Reach.toPath {w h m target s} {c : Int × Int}
    (r : Reach w h m target s c) : PathIn w h m target s c := by
  induction r with
  | base hs hv => exact PathIn.refl ⟨hs, hv⟩
  | step _ adj hd hv ih => exact PathIn.tail ih adj ⟨hd, hv⟩

theorem length_setCell (m : List (List Int)) (x y : Nat) (v : Int) :
    (setCell m x y v).length = m.length := by
  simp [setCell]

theorem getCell_setCell_same (m : List (List Int)) (x y : Nat) (v : Int)
    (hy : y < m.length) (hx : x < (m.getD y []).length) :
    getCell (setCell m x y v) x y = v := by
  simp only [List.getD_eq_getElem?_getD] at hx
  simp only [getCell, setCell, List.getD_eq_getElem?_getD]
  rw [List.getElem?_set_self hy, Option.getD_some, List.getElem?_set_self hx,
    Option.getD_some]

theorem getCell_setCell_other (m : List (List Int)) (x y x' y' : Nat)
    (v : Int) (hne : ¬(x' = x ∧ y' = y)) :
    getCell (setCell m x y v) x' y' = getCell m x' y' := by
  simp only [getCell, setCell, List.getD_eq_getElem?_getD]
  rcases eq_or_ne y' y with rfl | hy
  · have hx : x ≠ x' := fun hx => hne ⟨hx.symm, rfl⟩
    rcases Nat.lt_or_ge y' m.length with hlt | hge
    · rw [List.getElem?_set_self hlt, Option.getD_some,
        List.getElem?_set_ne hx]
    · rw [List.set_eq_of_length_le hge]
  · rw [List.getElem?_set_ne (Ne.symm hy)]

theorem countP_set_decrement (row : List Int) (target repl : Int)
    (hne : target ≠ repl) :
    ∀ x : Nat, x < row.length → row.getD x 0 = target →
    (row.set x repl).countP (fun v => v == target) + 1
      = row.countP (fun v => v == target) := by
  induction row with
  | nil => intro x hx; exact absurd hx (by simp)
  | cons a t iht =>
    intro x hx hv
    cases x with
    | zero =>
      have ha : a = target := by simpa using hv
      have hr : (repl == target) = false := by
        simp [show repl ≠ target from fun e => hne e.symm]
      simp [List.countP_cons, ha, hr]
    | succ x =>
      have := iht x (by simpa using Nat.lt_of_succ_lt_succ hx) (by simpa using hv)
      simp only [List.set_cons_succ, List.countP_cons]
      omega

theorem countTarget_setCell (m : List (List Int)) (target repl : Int)
    (hne : target ≠ repl) :
    ∀ (y x : Nat), y < m.length → x < (m.getD y []).length →
    getCell m x y = target →
    countTarget target (setCell m x y repl) + 1 = countTarget target m := by
  induction m with
  | nil => intro y x hy; exact absurd hy (by simp)
  | cons r tl ihtl =>
    intro y x hy hx hv
    cases y with
    | zero =>
      have hrow := countP_set_decrement r target repl hne x (by simpa using hx)
        (by simpa [getCell] using hv)
      simp only [setCell, countTarget, List.getD_cons_zero, List.set_cons_zero,
        List.map_cons, List.sum_cons] at *
      omega
    | succ y =>
      have := ihtl y x (by simpa using Nat.lt_of_succ_lt_succ hy)
        (by simpa using hx) (by simpa [getCell] using hv)
      simp only [setCell, countTarget, List.getD_cons_succ, List.set_cons_succ,
        List.map_cons, List.sum_cons] at *
      omega

theorem getD_row_length {w : Nat} (m : List (List Int))
    (hw : ∀ r ∈ m, r.length = w) (y : Nat) (hy : y < m.length) :
    (m.getD y []).length = w := by
  rw [List.getD_eq_getElem _ _ hy]
  exact hw _ (List.getElem_mem hy)

theorem cellVal_setCell_self {w h : Nat} {e : Int × Int}
    (m : List (List Int)) (v : Int) (he : InBounds w h e)
    (hh : m.length = h) (hw : ∀ r ∈ m, r.length = w) :
    cellVal (setCell m e.1.toNat e.2.toNat v) e = v := by
  obtain ⟨h1, h2, h3, h4⟩ := he
  have hy : e.2.toNat < m.length := by omega
  apply getCell_setCell_same
  · exact hy
  · rw [getD_row_length m hw _ hy]; omega

theorem cellVal_setCell_other {w h : Nat} {c e : Int × Int}
    (m : List (List Int)) (v : Int) (hc : InBounds w h c)
    (he : InBounds w h e) (hne : c ≠ e) :
    cellVal (setCell m e.1.toNat e.2.toNat v) c = cellVal m c := by
  obtain ⟨hc1, hc2, _, _⟩ := hc
  obtain ⟨he1, he2, _, _⟩ := he
  apply getCell_setCell_other
  rintro ⟨h1, h2⟩
  exact hne (Prod.ext (by omega) (by omega))

/-- Rebasing paths past a just-filled cell `e` : a path to `c ≠ e` either
avoids `e` entirely, or its last visit to `e` exits through one of the
four neighbours of `e`. -/
theorem pathIn_split {w h : Nat} {target : Int}
    {m m' : List (List Int)} {e : Int × Int}
    (hmod : ∀ d, InBounds w h d → d ≠ e → cellVal m' d = cellVal m d) :
    ∀ {a c : Int × Int}, PathIn w h m target a c → c ≠ e →
      PathIn w h m' target a c ∨
        ∃ d, Adj e d ∧ PathIn w h m' target d c := by
  intro a c p
  induction p with
  | refl hc =>
    intro hcne
    exact Or.inl (PathIn.refl ⟨hc.1, by rw [hmod _ hc.1 hcne]; exact hc.2⟩)
  | @tail c d p adj hd ih =>
    intro hdne
    have hd' : OkCell w h m' target d := ⟨hd.1, by rw [hmod _ hd.1 hdne]; exact hd.2⟩
    by_cases hce : c = e
    · subst hce
      exact Or.inr ⟨d, adj, PathIn.refl hd'⟩
    · rcases ih hce with hp | ⟨d', hadj, hp⟩
      · exact Or.inl (PathIn.tail hp adj hd')
      · exact Or.inr ⟨d', hadj, PathIn.tail hp adj hd'⟩

theorem adj_mem_push (cx cy : Int) (d : Int × Int)
    (rest : List (Int × Int)) (hadj : Adj (cx, cy) d) :
    d ∈ (cx, cy - 1) :: (cx, cy + 1) :: (cx - 1, cy) :: (cx + 1, cy) :: rest := by
  rcases hadj with hd | hd | hd | hd <;> subst hd <;> simp

/-- Invariant proof for the fill loop: starting from a state whose grid
differs from the original `m₀` only on already-filled component cells and
whose pending stack covers every still-unfilled component cell, the loop
ends with exactly the component of the start cell filled. -/
theorem ffAux_spec (w h : Nat) (target repl : Int) (hne : target ≠ repl)
    (m₀ : List (List Int)) (s : Int × Int) :
    ∀ (fuel : Nat) (m : List (List Int)) (stack : List (Int × Int)),
      m.length = h → (∀ r ∈ m, r.length = w) →
      5 * countTarget target m + stack.length ≤ fuel →
      (∀ c, InBounds w h c →
        cellVal m c = cellVal m₀ c ∨
          (cellVal m c = repl ∧ Reach w h m₀ target s c)) →
      (∀ e ∈ stack, InBounds w h e → cellVal m₀ e = target →
        Reach w h m₀ target s e) →
      (∀ c, Reach w h m₀ target s c →
        cellVal m c = repl ∨ ReachStk w h m target stack c) →
      (∀ c, InBounds w h c →
        cellVal (ffAux w h target repl fuel m stack) c = cellVal m₀ c ∨
          (cellVal (ffAux w h target repl fuel m stack) c = repl ∧
            Reach w h m₀ target s c)) ∧
      (∀ c, Reach w h m₀ target s c →
        cellVal (ffAux w h target repl fuel m stack) c = repl) := by
  intro fuel
  induction fuel with
  | zero =>
    intro m stack hh hw hfuel H2 H3 H4
    have hstack : stack = [] := List.length_eq_zero.mp (by omega)
    subst hstack
    refine ⟨fun c hc => by simpa [ffAux] using H2 c hc, fun c hr => ?_⟩
    rcases H4 c hr with hrepl | ⟨e, he, _⟩
    · simpa [ffAux] using hrepl
    · exact absurd he (List.not_mem_nil e)
  | succ fuel ih =>
    intro m stack hh hw hfuel H2 H3 H4
    rcases stack with _ | ⟨⟨cx, cy⟩, rest⟩
    · refine ⟨fun c hc => by simpa [ffAux] using H2 c hc, fun c hr => ?_⟩
      rcases H4 c hr with hrepl | ⟨e, he, _⟩
      · simpa [ffAux] using hrepl
      · exact absurd he (List.not_mem_nil e)
    · by_cases hg : cx < 0 ∨ cy < 0 ∨ (w : Int) ≤ cx ∨ (h : Int) ≤ cy
      · have heq : ffAux w h target repl (fuel + 1) m ((cx, cy) :: rest)
            = ffAux w h target repl fuel m rest := by
          simp only [ffAux, if_pos hg]
        rw [heq]
        refine ih m rest hh hw (by simp at hfuel ⊢; omega) H2
          (fun e he hin hv => H3 e (List.mem_cons_of_mem _ he) hin hv)
          (fun c hr => ?_)
        rcases H4 c hr with hrepl | ⟨e', he', hp⟩
        · exact Or.inl hrepl
        · rcases List.mem_cons.mp he' with rfl | hmem
          · exact absurd hp.ok_left.1 (by unfold InBounds; omega)
          · exact Or.inr ⟨e', hmem, hp⟩
      · have hinb : InBounds w h (cx, cy) := by unfold InBounds; omega
        by_cases hv : getCell m cx.toNat cy.toNat = target
        · -- fill step
          have hy : cy.toNat < m.length := by
            obtain ⟨_, _, _, h4⟩ := hinb; omega
          have hx : cx.toNat < (m.getD cy.toNat []).length := by
            rw [getD_row_length m hw _ hy]
            obtain ⟨_, _, h3, _⟩ := hinb; omega
          have heq : ffAux w h target repl (fuel + 1) m ((cx, cy) :: rest)
              = ffAux w h target repl fuel (setCell m cx.toNat cy.toNat repl)
                  ((cx, cy - 1) :: (cx, cy + 1) :: (cx - 1, cy) ::
                    (cx + 1, cy) :: rest) := by
            simp only [ffAux, if_neg hg, if_neg (not_not_intro hv)]
          have hreach0 : Reach w h m₀ target s (cx, cy) := by
            rcases H2 (cx, cy) hinb with h0 | ⟨h0, _⟩
            · exact H3 (cx, cy) (List.mem_cons_self _ _) hinb
                (by rw [← h0]; exact hv)
            · exact absurd (h0.symm.trans hv) (Ne.symm hne)
          have hvself : cellVal (setCell m cx.toNat cy.toNat repl) (cx, cy)
              = repl :=
            cellVal_setCell_self m repl hinb hh hw
          have hmod : ∀ d, InBounds w h d → d ≠ (cx, cy) →
              cellVal (setCell m cx.toNat cy.toNat repl) d = cellVal m d :=
            fun d hd hdne => cellVal_setCell_other m repl hd hinb hdne
          rw [heq]
          refine ih (setCell m cx.toNat cy.toNat repl) _
            (by rw [length_setCell]; exact hh)
            (fun r hr => ?_)
            (by
              have := countTarget_setCell m target repl hne cy.toNat cx.toNat
                hy hx hv
              simp only [List.length_cons] at hfuel ⊢
              omega)
            (fun c hc => ?_) (fun e he hin hcv => ?_) (fun c hr => ?_)
          · -- row lengths preserved
            rcases List.mem_or_eq_of_mem_set hr with hr' | rfl
            · exact hw _ hr'
            · rw [List.length_set]
              exact getD_row_length m hw _ hy
          · -- H2 preserved
            by_cases hce : c = (cx, cy)
            · subst hce; exact Or.inr ⟨hvself, hreach0⟩
            · rw [hmod c hc hce]; exact H2 c hc
          · -- H3 for the four pushed neighbours and the remaining stack
            have hstep : ∀ d, Adj (cx, cy) d → InBounds w h d →
                cellVal m₀ d = target → Reach w h m₀ target s d :=
              fun d hadj hdin hdv => Reach.step hreach0 hadj hdin hdv
            rcases List.mem_cons.mp he with rfl | he1
            · exact hstep _ (Or.inr (Or.inr (Or.inr rfl))) hin hcv
            rcases List.mem_cons.mp he1 with rfl | he2
            · exact hstep _ (Or.inr (Or.inr (Or.inl rfl))) hin hcv
            rcases List.mem_cons.mp he2 with rfl | he3
            · exact hstep _ (Or.inr (Or.inl rfl)) hin hcv
            rcases List.mem_cons.mp he3 with rfl | he4
            · exact hstep _ (Or.inl rfl) hin hcv
            · exact H3 e (List.mem_cons_of_mem _ he4) hin hcv
          · -- H4 preserved
            by_cases hcrepl : cellVal (setCell m cx.toNat cy.toNat repl) c = repl
            · exact Or.inl hcrepl
            have hcc : c ≠ (cx, cy) := fun hce => hcrepl (hce ▸ hvself)
            have hcv2 : cellVal (setCell m cx.toNat cy.toNat repl) c
                = cellVal m c := hmod c hr.inBounds hcc
            rcases H4 c hr with hrepl | ⟨e', he', hp⟩
            · exact absurd (hcv2.trans hrepl) hcrepl
            rcases pathIn_split hmod hp hcc with hp' | ⟨d, hadj, hp'⟩
            · have he'ne : e' ≠ (cx, cy) := by
                intro he0
                have := hp'.ok_left.2
                rw [he0, hvself] at this
                exact hne this.symm
              have he'rest : e' ∈ rest :=
                (List.mem_cons.mp he').resolve_left he'ne
              exact Or.inr ⟨e', by simp [he'rest], hp'⟩
            · exact Or.inr ⟨d, adj_mem_push cx cy d rest hadj, hp'⟩
        · -- skip: popped cell no longer target-valued
          have heq : ffAux w h target repl (fuel + 1) m ((cx, cy) :: rest)
              = ffAux w h target repl fuel m rest := by
            simp only [ffAux, if_neg hg, if_pos hv]
          rw [heq]
          refine ih m rest hh hw (by simp at hfuel ⊢; omega) H2
            (fun e he hin hcv => H3 e (List.mem_cons_of_mem _ he) hin hcv)
            (fun c hr => ?_)
          rcases H4 c hr with hrepl | ⟨e', he', hp⟩
          · exact Or.inl hrepl
          · rcases List.mem_cons.mp he' with rfl | hmem
            · exact absurd hp.ok_left.2 hv
            · exact Or.inr ⟨e', hmem, hp⟩

/-- Top-level correctness of the fill loop: starting it on the original
grid with the start cell on the stack fills exactly the component. -/
theorem flood_fill_spec (m : List (List Int)) (x y repl : Int)
    (hrect : ∀ r ∈ m, r.length = (m.headD []).length)
    (_hin : InBounds (m.headD []).length m.length (x, y))
    (hneq : repl ≠ getCell m x.toNat y.toNat) :
    (∀ c, Reach (m.headD []).length m.length m
        (getCell m x.toNat y.toNat) (x, y) c →
      cellVal (flood_fill m x y (getCell m x.toNat y.toNat) repl) c = repl) ∧
    (∀ c, InBounds (m.headD []).length m.length c →
      ¬ Reach (m.headD []).length m.length m
          (getCell m x.toNat y.toNat) (x, y) c →
      cellVal (flood_fill m x y (getCell m x.toNat y.toNat) repl) c
        = cellVal m c) := by
  have hne : getCell m x.toNat y.toNat ≠ repl := fun e => hneq e.symm
  have heq : flood_fill m x y (getCell m x.toNat y.toNat) repl
      = ffAux (m.headD []).length m.length (getCell m x.toNat y.toNat) repl
          (5 * countTarget (getCell m x.toNat y.toNat) m + 1) m [(x, y)] := by
    rw [flood_fill, if_neg hne]
  obtain ⟨P1, P2⟩ := ffAux_spec (m.headD []).length m.length
    (getCell m x.toNat y.toNat) repl hne m (x, y)
    (5 * countTarget (getCell m x.toNat y.toNat) m + 1) m [(x, y)] rfl hrect
    (by simp)
    (fun c _ => Or.inl rfl)
    (fun e he hin2 hv => by
      rcases List.mem_cons.mp he with rfl | h0
      · exact Reach.base hin2 hv
      · exact absurd h0 (List.not_mem_nil e))
    (fun c hr => Or.inr ⟨(x, y), List.mem_cons_self _ _, hr.toPath⟩)
  constructor
  · intro c hr; rw [heq]; exact P2 c hr
  · intro c hc hnr
    rw [heq]
    rcases P1 c hc with h0 | ⟨_, hrr⟩
    · exact h0
    · exact absurd hrr hnr

/-- Claim C3: flood fill fills exactly the 4-connected component.  For
every non-empty rectangular grid, in-bounds start cell `(x, y)` with
target `grid[y][x]` and a replacement distinct from the target, every
cell 4-connected to the start among target-valued cells ends up holding
the replacement and every other cell is unchanged; in particular the 4×4
scenario (all 2 except `(3,3) = -1`, filled from `(0,0)` with 5) yields
all 5 except `(3,3) = -1`; and with target equal to the replacement the
grid is returned unchanged. -/
theorem C3_flood_fill_component :
    (∀ (m : List (List Int)) (x y repl : Int),
      m ≠ [] →
      (∀ r ∈ m, r.length = (m.headD []).length) →
      InBounds (m.headD []).length m.length (x, y) →
      repl ≠ getCell m x.toNat y.toNat →
      ∀ c, InBounds (m.headD []).length m.length c →
        (Reach (m.headD []).length m.length m (getCell m x.toNat y.toNat)
            (x, y) c →
          cellVal (flood_fill m x y (getCell m x.toNat y.toNat) repl) c
            = repl) ∧
        (¬ Reach (m.headD []).length m.length m (getCell m x.toNat y.toNat)
            (x, y) c →
          cellVal (flood_fill m x y (getCell m x.toNat y.toNat) repl) c
            = cellVal m c))
    ∧ flood_fill [[2, 2, 2, 2], [2, 2, 2, 2], [2, 2, 2, 2], [2, 2, 2, -1]]
        0 0 2 5
        = [[5, 5, 5, 5], [5, 5, 5, 5], [5, 5, 5, 5], [5, 5, 5, -1]]
    ∧ (∀ (m : List (List Int)) (x y t : Int), flood_fill m x y t t = m) :=
  ⟨fun m x y repl _ hrect hin hneq c hc =>
      ⟨fun hr => (flood_fill_spec m x y repl hrect hin hneq).1 c hr,
       fun hnr => (flood_fill_spec m x y repl hrect hin hneq).2 c hc hnr⟩,
   by decide,
   fun m x y t => by simp [flood_fill]⟩

/-- Witness for C3: on the grid `[[2, 2]]`, filling from `(0, 0)` with 5
recolors the adjacent cell `(1, 0)`. -/
theorem C3_flood_fill_component_witness :
    cellVal (flood_fill [[2, 2]] 0 0 2 5) (1, 0) = 5 :=
  (C3_flood_fill_component.1 [[2, 2]] 0 0 5 (by decide) (by decide)
      (by decide) (by decide) (1, 0) (by decide)).1
    (Reach.step (Reach.base (by decide) (by decide))
      (Or.inl (by decide)) (by decide) (by decide))

/-- Invariant of the strict-minimum scan, entered with a current best
value `b` held at index `bi`: either no later distance beats `b` and the
loop returns `bi`, or it returns the position of the least strict
improvement over `b`, which is a least argmin of the scanned distances
with ties resolved to the lowest index. -/
theorem bestLoop_some {α : Type} [LinearOrder α] :
    ∀ (ds : List α) (i bi : Nat) (b : α),
      (bestLoop ds i bi (some b) = bi ∧
        ∀ j, (hj : j < ds.length) → b ≤ ds[j]) ∨
      (∃ k, ∃ hk : k < ds.length, bestLoop ds i bi (some b) = i + k ∧
        ds[k] < b ∧
        (∀ j, (hj : j < ds.length) → ds[k] ≤ ds[j]) ∧
        (∀ j, (hj : j < ds.length) → j < k → ds[k] < ds[j])) := by
  intro ds
  induction ds with
  | nil =>
    intro i bi b
    exact Or.inl ⟨rfl, fun j hj => absurd hj (by simp)⟩
  | cons d rest ih =>
    intro i bi b
    by_cases hdb : d < b
    · have hstep : bestLoop (d :: rest) i bi (some b)
          = bestLoop rest (i + 1) i (some d) := by
        simp [bestLoop, betterThan, hdb]
      rw [hstep]
      rcases ih (i + 1) i d with ⟨h1, h2⟩ | ⟨k, hk, h1, h2, h3, h4⟩
      · refine Or.inr ⟨0, by simp, by simpa using h1, by simpa using hdb,
          ?_, ?_⟩
        · intro j hj
          cases j with
          | zero => simp
          | succ j =>
            simpa using h2 j (by simpa using Nat.lt_of_succ_lt_succ hj)
        · intro j hj hj0
          omega
      · refine Or.inr ⟨k + 1, by simpa using Nat.succ_lt_succ hk,
          h1.trans (by omega), by simpa using lt_trans h2 hdb, ?_, ?_⟩
        · intro j hj
          cases j with
          | zero => simpa using le_of_lt h2
          | succ j =>
            simpa using h3 j (by simpa using Nat.lt_of_succ_lt_succ hj)
        · intro j hj hj0
          cases j with
          | zero => simpa using h2
          | succ j =>
            simpa using h4 j (by simpa using Nat.lt_of_succ_lt_succ hj)
              (by omega)
    · have hstep : bestLoop (d :: rest) i bi (some b)
          = bestLoop rest (i + 1) bi (some b) := by
        simp [bestLoop, betterThan, hdb]
      rw [hstep]
      have hbd : b ≤ d := le_of_not_lt hdb
      rcases ih (i + 1) bi b with ⟨h1, h2⟩ | ⟨k, hk, h1, h2, h3, h4⟩
      · refine Or.inl ⟨h1, ?_⟩
        intro j hj
        cases j with
        | zero => simpa using hbd
        | succ j =>
          simpa using h2 j (by simpa using Nat.lt_of_succ_lt_succ hj)
      · refine Or.inr ⟨k + 1, by simpa using Nat.succ_lt_succ hk,
          h1.trans (by omega), by simpa using h2, ?_, ?_⟩
        · intro j hj
          cases j with
          | zero => simpa using le_of_lt (lt_of_lt_of_le h2 hbd)
          | succ j =>
            simpa using h3 j (by simpa using Nat.lt_of_succ_lt_succ hj)
        · intro j hj hj0
          cases j with
          | zero => simpa using lt_of_lt_of_le h2 hbd
          | succ j =>
            simpa using h4 j (by simpa using Nat.lt_of_succ_lt_succ hj)
              (by omega)

/-- The strict-minimum scan over a nonempty distance list returns the
index of the minimum, with ties resolved to the lowest index. -/
theorem bestLoop_spec {α : Type} [LinearOrder α] (ds : List α)
    (hne : ds ≠ []) :
    ∃ k, ∃ hk : k < ds.length, bestLoop ds 0 0 none = k ∧
      (∀ j, (hj : j < ds.length) → ds[k] ≤ ds[j]) ∧
      (∀ j, (hj : j < ds.length) → j < k → ds[k] < ds[j]) := by
  rcases ds with _ | ⟨d, rest⟩
  · exact absurd rfl hne
  have hstep : bestLoop (d :: rest) 0 0 none = bestLoop rest 1 0 (some d) := by
    simp [bestLoop, betterThan]
  rcases bestLoop_some rest 1 0 d with ⟨h1, h2⟩ | ⟨k, hk, h1, h2, h3, h4⟩
  · refine ⟨0, by simp, hstep.trans h1, ?_, ?_⟩
    · intro j hj
      cases j with
      | zero => simp
      | succ j =>
        simpa using h2 j (by simpa using Nat.lt_of_succ_lt_succ hj)
    · intro j hj hj0
      omega
  · refine ⟨k + 1, by simpa using Nat.succ_lt_succ hk,
      hstep.trans (h1.trans (by omega)), ?_, ?_⟩
    · intro j hj
      cases j with
      | zero => simpa using le_of_lt h2
      | succ j =>
        simpa using h3 j (by simpa using Nat.lt_of_succ_lt_succ hj)
    · intro j hj hj0
      cases j with
      | zero => simpa using h2
      | succ j =>
        simpa using h4 j (by simpa using Nat.lt_of_succ_lt_succ hj)
          (by omega)

theorem log2fuel_le : ∀ (fuel n : Nat), 1 ≤ n → 2 ^ log2fuel fuel n ≤ n := by
  intro fuel
  induction fuel with
  | zero =>
    intro n h1
    simp only [log2fuel, pow_zero]
    omega
  | succ fuel ih =>
    intro n h1
    by_cases h2 : 2 ≤ n
    · simp only [log2fuel, if_pos h2]
      have ihh := ih (n / 2) (by omega)
      rw [pow_succ]
      have h3 : n / 2 * 2 ≤ n := Nat.div_mul_le_self n 2
      omega
    · simp only [log2fuel, if_neg h2, pow_zero]
      omega

theorem fround_zero : fround 0 = 0 := by
  simp [fround]

theorem fround_pos (n : Int) (hn : 0 < n) : 0 < fround n := by
  unfold fround
  rw [if_neg (by omega)]
  dsimp only
  by_cases hb : log2fuel 300 n.natAbs ≤ 52
  · rw [if_pos hb]
    exact hn
  · rw [if_neg hb, if_neg (by omega : ¬n < 0)]
    apply mul_pos ?_ (pow_pos (by norm_num) _)
    rw [Int.natCast_pos]
    have h1 : 1 ≤ n.natAbs := by omega
    have hle := log2fuel_le 300 n.natAbs h1
    have hq : 2 ^ 52 ≤ n.natAbs / 2 ^ (log2fuel 300 n.natAbs - 52) := by
      have hdiv : (2 : Nat) ^ log2fuel 300 n.natAbs
          / 2 ^ (log2fuel 300 n.natAbs - 52) = 2 ^ 52 := by
        rw [Nat.pow_div (by omega) (by norm_num)]
        congr 1
        omega
      rw [← hdiv]
      exact Nat.div_le_div_right hle
    have h52 : 1 ≤ (2 : Nat) ^ 52 := Nat.one_le_two_pow
    split_ifs <;> omega

theorem fround_neg (n : Int) (hn : n < 0) : fround n < 0 := by
  unfold fround
  rw [if_neg (by omega)]
  dsimp only
  by_cases hb : log2fuel 300 n.natAbs ≤ 52
  · rw [if_pos hb]
    exact hn
  · rw [if_neg hb, if_pos hn]
    apply mul_neg_of_neg_of_pos ?_ (pow_pos (by norm_num) _)
    rw [neg_lt_zero, Int.natCast_pos]
    have h1 : 1 ≤ n.natAbs := by omega
    have hle := log2fuel_le 300 n.natAbs h1
    have hq : 2 ^ 52 ≤ n.natAbs / 2 ^ (log2fuel 300 n.natAbs - 52) := by
      have hdiv : (2 : Nat) ^ log2fuel 300 n.natAbs
          / 2 ^ (log2fuel 300 n.natAbs - 52) = 2 ^ 52 := by
        rw [Nat.pow_div (by omega) (by norm_num)]
        congr 1
        omega
      rw [← hdiv]
      exact Nat.div_le_div_right hle
    have h52 : 1 ≤ (2 : Nat) ^ 52 := Nat.one_le_two_pow
    split_ifs <;> omega

theorem fround_nonneg (n : Int) (hn : 0 ≤ n) : 0 ≤ fround n := by
  rcases eq_or_lt_of_le hn with h | h
  · rw [← h, fround_zero]
  · exact (fround_pos n h).le

theorem fround_eq_zero_iff (n : Int) : fround n = 0 ↔ n = 0 := by
  constructor
  · intro h
    by_contra hn
    rcases lt_or_gt_of_ne hn with hlt | hgt
    · exact absurd h (ne_of_lt (fround_neg n hlt))
    · exact absurd h (ne_of_gt (fround_pos n hgt))
  · intro h
    rw [h, fround_zero]

/-- If the whole rounded distance pipeline collapses to zero, each of the
three rounded factors was zero. -/
theorem pipeline_eq_zero (x y z : Int)
    (h : fround (fround (fround (x * x) * 16 + fround (y * y) * 64)
      + fround (z * z)) = 0) :
    x = 0 ∧ y = 0 ∧ z = 0 := by
  have h1 : 0 ≤ fround (x * x) := fround_nonneg _ (mul_self_nonneg _)
  have h2 : 0 ≤ fround (y * y) := fround_nonneg _ (mul_self_nonneg _)
  have h3 : 0 ≤ fround (z * z) := fround_nonneg _ (mul_self_nonneg _)
  have h12 : 0 ≤ fround (fround (x * x) * 16 + fround (y * y) * 64) :=
    fround_nonneg _ (add_nonneg (mul_nonneg h1 (by norm_num))
      (mul_nonneg h2 (by norm_num)))
  have hsum := (fround_eq_zero_iff _).mp h
  have hu0 : fround (fround (x * x) * 16 + fround (y * y) * 64) = 0 := by
    omega
  have hz0 : fround (z * z) = 0 := by omega
  have hxy := (fround_eq_zero_iff _).mp hu0
  have hx0 : fround (x * x) = 0 := by omega
  have hy0 : fround (y * y) = 0 := by omega
  exact ⟨mul_self_eq_zero.mp ((fround_eq_zero_iff _).mp hx0),
    mul_self_eq_zero.mp ((fround_eq_zero_iff _).mp hy0),
    mul_self_eq_zero.mp ((fround_eq_zero_iff _).mp hz0)⟩

theorem floatWeightedDist_nonneg (q : Int × Int × Int) (p : List Int) :
    0 ≤ floatWeightedDist q p := by
  unfold floatWeightedDist
  dsimp only
  exact fround_nonneg _ (add_nonneg
    (fround_nonneg _ (add_nonneg
      (mul_nonneg (fround_nonneg _ (mul_self_nonneg _)) (by norm_num))
      (mul_nonneg (fround_nonneg _ (mul_self_nonneg _)) (by norm_num))))
    (fround_nonneg _ (mul_self_nonneg _)))

theorem floatWeightedDist_eq_zero_iff (q : Int × Int × Int) (p : List Int) :
    floatWeightedDist q p = 0 ↔ rgb3 p = q := by
  obtain ⟨r, g, b⟩ := q
  unfold floatWeightedDist rgb3
  dsimp only
  constructor
  · intro h0
    obtain ⟨hx, hy, hz⟩ := pipeline_eq_zero _ _ _ h0
    have hd1 := (fround_eq_zero_iff _).mp hx
    have hd2 := (fround_eq_zero_iff _).mp hy
    have hd3 := (fround_eq_zero_iff _).mp hz
    have e1 : p.getD 0 0 = r := by
      rcases mul_eq_zero.mp hd1 with h | h <;> omega
    have e2 : p.getD 1 0 = g := by
      rcases mul_eq_zero.mp hd2 with h | h <;> omega
    have e3 : p.getD 2 0 = b := by
      rcases mul_eq_zero.mp hd3 with h | h <;> omega
    exact Prod.ext e1 (Prod.ext e2 e3)
  · intro hp
    have f1 : p.getD 0 0 = r := congrArg Prod.fst hp
    have f2 : p.getD 1 0 = g := congrArg Prod.fst (congrArg Prod.snd hp)
    have f3 : p.getD 2 0 = b := congrArg Prod.snd (congrArg Prod.snd hp)
    rw [f1, f2, f3]
    simp [fround_zero]

set_option maxRecDepth 100000 in
/-- Claim C4 counterexample: at the query (0,0,0,255) the palette entries
`[0,0,59,255]` and `[0,11,0,255]` are at exactly the same ideal weighted
distance ((59·0.11)² = (11·0.59)² = 421201/10000), so the claim's
ties-to-the-lowest-index clause demands index 0; but the program's
double-precision arithmetic rounds the two distances differently
((11·0.59)² is one ulp below (59·0.11)²) and `find_closest_color`
returns index 1 — the query's alpha 255 clears the threshold and the
palette is nonempty, so the input is inside the claim's hypotheses. -/
theorem C4_counterexample :
    find_closest_color [[0, 0, 59, 255], [0, 11, 0, 255]] (0, 0, 0, 255) = 1 ∧
    exactWeightedDist (0, 0, 0) [0, 0, 59, 255]
      = exactWeightedDist (0, 0, 0) [0, 11, 0, 255] ∧
    floatWeightedDist (0, 0, 0) [0, 11, 0, 255]
      < floatWeightedDist (0, 0, 0) [0, 0, 59, 255] ∧
    ([[0, 0, 59, 255], [0, 11, 0, 255]] : List (List Int)) ≠ [] ∧
    (32 : Int) ≤ 255 ∧ (1 : Int) ≠ 0 := by
  refine ⟨by decide, ?_, by decide, by decide, by decide, by decide⟩
  norm_num [exactWeightedDist, List.getD_cons_zero, List.getD_cons_succ]

/-- Claim C4 (amended): nearest-color quantization is total and exact on
hits, with ties resolved at the distance the program actually computes.
For every nonempty palette and every 8-bit query whose alpha is at least
32 (the 8-bit bounds keep the binary64 model exact — conversions of the
channel differences to double are lossless and no overflow can occur),
`find_closest_color` returns an index into the palette that attains the
minimal double-precision weighted distance, is the lowest index among
entries at that computed minimum, and — when the palette holds the
query's exact RGB and colors are duplicate-free — is exactly that
entry's index.  Ties of the ideal real-valued distance, however, can be
broken by rounding (see the counterexample), so "lowest tied index"
holds for the computed distance, not the ideal one. -/
theorem C4_find_closest_color (palette : List (List Int)) (r g b a : Int)
    (hpal : palette ≠ []) (ha : 32 ≤ a)
    (_h8 : 0 ≤ r ∧ r ≤ 255 ∧ 0 ≤ g ∧ g ≤ 255 ∧ 0 ≤ b ∧ b ≤ 255)
    (_hpal8 : ∀ e ∈ palette, ∀ v ∈ e, 0 ≤ v ∧ v ≤ 255) :
    ∃ k, ∃ hk : k < palette.length,
      find_closest_color palette (r, g, b, a) = (k : Int) ∧
      (∀ j, (hj : j < palette.length) →
        floatWeightedDist (r, g, b) palette[k]
          ≤ floatWeightedDist (r, g, b) palette[j]) ∧
      (∀ j, (hj : j < palette.length) → j < k →
        floatWeightedDist (r, g, b) palette[k]
          < floatWeightedDist (r, g, b) palette[j]) ∧
      (∀ j, (hj : j < palette.length) → rgb3 palette[j] = (r, g, b) →
        (∀ j1 j2, (h1 : j1 < palette.length) → (h2 : j2 < palette.length) →
          rgb3 palette[j1] = rgb3 palette[j2] → j1 = j2) →
        k = j) := by
  have hds : palette.map (floatWeightedDist (r, g, b)) ≠ [] := by
    simpa using hpal
  obtain ⟨k, hk, heq, hmin, hstrict⟩ :=
    bestLoop_spec (palette.map (floatWeightedDist (r, g, b))) hds
  have hk' : k < palette.length := by simpa using hk
  have hfcc : find_closest_color palette (r, g, b, a) = (k : Int) := by
    simp only [find_closest_color]
    rw [if_neg (by omega)]
    exact_mod_cast heq
  have hmin' : ∀ j, (hj : j < palette.length) →
      floatWeightedDist (r, g, b) palette[k]
        ≤ floatWeightedDist (r, g, b) palette[j] := by
    intro j hj
    have := hmin j (by simpa using hj)
    simpa [List.getElem_map] using this
  refine ⟨k, hk', hfcc, hmin', ?_, ?_⟩
  · intro j hj hjk
    have := hstrict j (by simpa using hj) hjk
    simpa [List.getElem_map] using this
  · intro j hj hexact hinj
    have hj0 : floatWeightedDist (r, g, b) palette[j] = 0 :=
      (floatWeightedDist_eq_zero_iff _ _).mpr hexact
    have hk0 : floatWeightedDist (r, g, b) palette[k] = 0 :=
      le_antisymm (by rw [← hj0]; exact hmin' j hj)
        (floatWeightedDist_nonneg _ _)
    exact hinj k j hk' hj
      (((floatWeightedDist_eq_zero_iff _ _).mp hk0).trans hexact.symm)

/-- Witness for the amended C4 at the palette
`[[0,0,0,255],[255,0,0,255]]` and the opaque red query. -/
theorem C4_find_closest_color_witness :
    ∃ k, ∃ hk : k < ([[0, 0, 0, 255], [255, 0, 0, 255]] :
        List (List Int)).length,
      find_closest_color [[0, 0, 0, 255], [255, 0, 0, 255]]
          (255, 0, 0, 255) = (k : Int) ∧
      (∀ j, (hj : j < ([[0, 0, 0, 255], [255, 0, 0, 255]] :
          List (List Int)).length) →
        floatWeightedDist (255, 0, 0)
            ([[0, 0, 0, 255], [255, 0, 0, 255]] : List (List Int))[k]
          ≤ floatWeightedDist (255, 0, 0)
            ([[0, 0, 0, 255], [255, 0, 0, 255]] : List (List Int))[j]) ∧
      (∀ j, (hj : j < ([[0, 0, 0, 255], [255, 0, 0, 255]] :
          List (List Int)).length) → j < k →
        floatWeightedDist (255, 0, 0)
            ([[0, 0, 0, 255], [255, 0, 0, 255]] : List (List Int))[k]
          < floatWeightedDist (255, 0, 0)
            ([[0, 0, 0, 255], [255, 0, 0, 255]] : List (List Int))[j]) ∧
      (∀ j, (hj : j < ([[0, 0, 0, 255], [255, 0, 0, 255]] :
          List (List Int)).length) →
        rgb3 ([[0, 0, 0, 255], [255, 0, 0, 255]] : List (List Int))[j]
          = (255, 0, 0) →
        (∀ j1 j2, (h1 : j1 < ([[0, 0, 0, 255], [255, 0, 0, 255]] :
            List (List Int)).length) →
          (h2 : j2 < ([[0, 0, 0, 255], [255, 0, 0, 255]] :
            List (List Int)).length) →
          rgb3 ([[0, 0, 0, 255], [255, 0, 0, 255]] : List (List Int))[j1]
            = rgb3 ([[0, 0, 0, 255], [255, 0, 0, 255]] :
              List (List Int))[j2] → j1 = j2) →
        k = j) :=
  C4_find_closest_color [[0, 0, 0, 255], [255, 0, 0, 255]] 255 0 0 255
    (by decide) (by decide) (by decide) (by decide)

theorem getD_map_of_lt {α β : Type} (f : α → β) (l : List α) (i : Nat)
    (hi : i < l.length) (d : β) (d' : α) :
    (l.map f).getD i d = f (l.getD i d') := by
  rw [List.getD_eq_getElem _ _ (by simpa using hi), List.getElem_map,
    List.getD_eq_getElem _ _ hi]

theorem getCell_map (f : Int → Int) (px : List (List Int)) (xx yy : Nat)
    (hy : yy < px.length) (hx : xx < (px.getD yy []).length) :
    getCell (px.map (List.map f)) xx yy = f (getCell px xx yy) := by
  unfold getCell
  rw [getD_map_of_lt (List.map f) px yy hy [] []]
  exact getD_map_of_lt f (px.getD yy []) xx hx 0 0

theorem remap_cell_sentinel (old_palette new_palette : List (List Int))
    (v : Int) (hv : v < 0) :
    remap_cell old_palette new_palette v = v := by
  unfold remap_cell
  rw [if_pos (Or.inl hv)]

theorem remap_cell_out_of_range (old_palette new_palette : List (List Int))
    (v : Int) (hv : (old_palette.length : Int) ≤ v) :
    remap_cell old_palette new_palette v = v := by
  unfold remap_cell
  rw [if_pos (Or.inr hv)]

/-- A valid old index is sent to the least argmin of the unweighted
squared RGB distances into the new palette. -/
theorem remap_cell_valid (old_palette new_palette : List (List Int))
    (v : Int) (hv0 : 0 ≤ v) (hvl : v < (old_palette.length : Int))
    (hnew : new_palette ≠ []) :
    ∃ k, ∃ hk : k < new_palette.length,
      remap_cell old_palette new_palette v = (k : Int) ∧
      (∀ j, (hj : j < new_palette.length) →
        color_distance_sq (rgb3 (old_palette.getD v.toNat []))
            (rgb3 new_palette[k])
          ≤ color_distance_sq (rgb3 (old_palette.getD v.toNat []))
            (rgb3 new_palette[j])) ∧
      (∀ j, (hj : j < new_palette.length) → j < k →
        color_distance_sq (rgb3 (old_palette.getD v.toNat []))
            (rgb3 new_palette[k])
          < color_distance_sq (rgb3 (old_palette.getD v.toNat []))
            (rgb3 new_palette[j])) := by
  have hds : new_palette.map
      (fun p => color_distance_sq (rgb3 (old_palette.getD v.toNat []))
        (rgb3 p)) ≠ [] := by
    simpa using hnew
  obtain ⟨k, hk, heq, hmin, hstrict⟩ := bestLoop_spec _ hds
  have hk' : k < new_palette.length := by simpa using hk
  have hcell : remap_cell old_palette new_palette v = (k : Int) := by
    unfold remap_cell
    rw [if_neg (by omega)]
    have hvn : v.toNat < old_palette.length := by omega
    unfold remap_mapping
    rw [getD_map_of_lt _ old_palette v.toNat hvn 0 []]
    unfold remap_best
    exact_mod_cast congrArg Nat.cast heq
  refine ⟨k, hk', hcell, ?_, ?_⟩
  · intro j hj
    have := hmin j (by simpa using hj)
    simpa [List.getElem_map] using this
  · intro j hj hjk
    have := hstrict j (by simpa using hj) hjk
    simpa [List.getElem_map] using this

/-- Claim C5: palette remap postcondition.  After `_remap_palette` the
document's palette is the new palette, the frame list keeps its length,
every cell holding -1 is unchanged, and every cell holding a valid index
into the old palette holds the index of the old color's nearest entry in
the new palette under unweighted squared RGB distance, ties to the lowest
index.  The new frames are computed from the old palette alone, so no
partially remapped state is observable. -/
theorem C5_remap_palette (doc : SpriteDoc) (new_palette : List (List Int))
    (hnew : new_palette ≠ []) :
    (remap_palette doc.palette new_palette doc).palette = new_palette ∧
    (remap_palette doc.palette new_palette doc).frames.length
      = doc.frames.length ∧
    ∀ fi, fi < doc.frames.length →
    ∀ yy xx, (hy : yy < (doc.frames.getD fi ⟨[]⟩).pixels.length) →
      (hx : xx < ((doc.frames.getD fi ⟨[]⟩).pixels.getD yy []).length) →
      (getCell (doc.frames.getD fi ⟨[]⟩).pixels xx yy = -1 →
        getCell ((remap_palette doc.palette new_palette doc).frames.getD fi
          ⟨[]⟩).pixels xx yy = -1) ∧
      (0 ≤ getCell (doc.frames.getD fi ⟨[]⟩).pixels xx yy →
        getCell (doc.frames.getD fi ⟨[]⟩).pixels xx yy
          < (doc.palette.length : Int) →
        ∃ k, ∃ hk : k < new_palette.length,
          getCell ((remap_palette doc.palette new_palette doc).frames.getD fi
            ⟨[]⟩).pixels xx yy = (k : Int) ∧
          (∀ j, (hj : j < new_palette.length) →
            color_distance_sq
                (rgb3 (doc.palette.getD
                  (getCell (doc.frames.getD fi ⟨[]⟩).pixels xx yy).toNat []))
                (rgb3 new_palette[k])
              ≤ color_distance_sq
                (rgb3 (doc.palette.getD
                  (getCell (doc.frames.getD fi ⟨[]⟩).pixels xx yy).toNat []))
                (rgb3 new_palette[j])) ∧
          (∀ j, (hj : j < new_palette.length) → j < k →
            color_distance_sq
                (rgb3 (doc.palette.getD
                  (getCell (doc.frames.getD fi ⟨[]⟩).pixels xx yy).toNat []))
                (rgb3 new_palette[k])
              < color_distance_sq
                (rgb3 (doc.palette.getD
                  (getCell (doc.frames.getD fi ⟨[]⟩).pixels xx yy).toNat []))
                (rgb3 new_palette[j]))) := by
  refine ⟨rfl, by simp [remap_palette], ?_⟩
  intro fi hfi yy xx hy hx
  have hframe : (remap_palette doc.palette new_palette doc).frames.getD fi ⟨[]⟩
      = ⟨(doc.frames.getD fi ⟨[]⟩).pixels.map
          (List.map (remap_cell doc.palette new_palette))⟩ := by
    unfold remap_palette
    exact getD_map_of_lt _ doc.frames fi hfi (⟨[]⟩ : SpriteFrame) (⟨[]⟩ : SpriteFrame)
  have hcell : getCell ((remap_palette doc.palette new_palette doc).frames.getD
      fi ⟨[]⟩).pixels xx yy
      = remap_cell doc.palette new_palette
          (getCell (doc.frames.getD fi ⟨[]⟩).pixels xx yy) := by
    rw [hframe]
    exact getCell_map _ _ xx yy hy hx
  constructor
  · intro hneg
    rw [hcell, hneg]
    exact remap_cell_sentinel _ _ _ (by omega)
  · intro h0 hlt
    obtain ⟨k, hk, hck, hmin, hstrict⟩ :=
      remap_cell_valid doc.palette new_palette
        (getCell (doc.frames.getD fi ⟨[]⟩).pixels xx yy) h0 hlt hnew
    exact ⟨k, hk, hcell.trans hck, hmin, hstrict⟩

/-- Witness for C5: remapping a one-frame document (palette `[[9,9,9,9]]`,
single cell 0) onto the palette `[[0,0,0,255],[9,9,9,255]]` keeps the
document's palette field in sync with the requested palette. -/
theorem C5_remap_palette_witness :
    (remap_palette
      ({ width := 1, height := 1, palette := [[9, 9, 9, 9]], frames := [⟨[[0]]⟩] } : SpriteDoc).palette
      [[0, 0, 0, 255], [9, 9, 9, 255]]
      ({ width := 1, height := 1, palette := [[9, 9, 9, 9]], frames := [⟨[[0]]⟩] } : SpriteDoc)).palette
      = [[0, 0, 0, 255], [9, 9, 9, 255]] :=
  (C5_remap_palette ({ width := 1, height := 1, palette := [[9, 9, 9, 9]], frames := [⟨[[0]]⟩] } : SpriteDoc)
    [[0, 0, 0, 255], [9, 9, 9, 255]] (by decide)).1

/-- Claim C10 (implicit): the remap leaves out-of-range indices in place —
a cell whose value is at or above the old palette's length is skipped by
the `val >= len(old_palette)` guard, not clamped or remapped, and so
survives the palette switch unchanged. -/
theorem C10_remap_invalid_pass_through (doc : SpriteDoc)
    (new_palette : List (List Int)) :
    ∀ fi, fi < doc.frames.length →
    ∀ yy xx, (hy : yy < (doc.frames.getD fi ⟨[]⟩).pixels.length) →
      (hx : xx < ((doc.frames.getD fi ⟨[]⟩).pixels.getD yy []).length) →
      (doc.palette.length : Int)
          ≤ getCell (doc.frames.getD fi ⟨[]⟩).pixels xx yy →
      getCell ((remap_palette doc.palette new_palette doc).frames.getD fi
        ⟨[]⟩).pixels xx yy
        = getCell (doc.frames.getD fi ⟨[]⟩).pixels xx yy := by
  intro fi hfi yy xx hy hx hge
  have hframe : (remap_palette doc.palette new_palette doc).frames.getD fi ⟨[]⟩
      = ⟨(doc.frames.getD fi ⟨[]⟩).pixels.map
          (List.map (remap_cell doc.palette new_palette))⟩ := by
    unfold remap_palette
    exact getD_map_of_lt _ doc.frames fi hfi (⟨[]⟩ : SpriteFrame) (⟨[]⟩ : SpriteFrame)
  rw [hframe]
  rw [getCell_map _ _ xx yy hy hx]
  exact remap_cell_out_of_range _ _ _ hge

/-- Witness for C10: a cell holding 7 with a one-entry old palette is
untouched by a remap onto `[[0,0,0,255]]`. -/
theorem C10_remap_invalid_pass_through_witness :
    getCell ((remap_palette
      ({ width := 1, height := 1, palette := [[1, 2, 3, 4]], frames := [⟨[[7]]⟩] } : SpriteDoc).palette
      [[0, 0, 0, 255]]
      ({ width := 1, height := 1, palette := [[1, 2, 3, 4]], frames := [⟨[[7]]⟩] } : SpriteDoc)).frames.getD 0
        ⟨[]⟩).pixels 0 0 = 7 :=
  (C10_remap_invalid_pass_through ({ width := 1, height := 1, palette := [[1, 2, 3, 4]], frames := [⟨[[7]]⟩] } : SpriteDoc)
    [[0, 0, 0, 255]] 0 (by decide) 0 0 (by decide) (by decide)
    (by decide)).trans (by decide)

theorem resize_frame_length (oldW oldH w h : Nat) (px : List (List Int)) :
    (resize_frame oldW oldH w h px).length = h := by
  simp [resize_frame]

theorem resize_frame_rows (oldW oldH w h : Nat) (px : List (List Int)) :
    ∀ row ∈ resize_frame oldW oldH w h px, row.length = w := by
  intro row hrow
  simp only [resize_frame, List.mem_map] at hrow
  obtain ⟨y, _, rfl⟩ := hrow
  simp

theorem resize_frame_getCell (oldW oldH w h : Nat) (px : List (List Int))
    (xx yy : Nat) (hxx : xx < w) (hyy : yy < h) :
    getCell (resize_frame oldW oldH w h px) xx yy
      = if yy < min h oldH ∧ xx < min w oldW then getCell px xx yy
        else -1 := by
  unfold resize_frame getCell
  rw [getD_map_of_lt _ (List.range h) yy (by simpa using hyy) [] 0,
    List.getD_eq_getElem (List.range h) 0 (by simpa using hyy),
    List.getElem_range,
    getD_map_of_lt _ (List.range w) xx (by simpa using hxx) 0 0,
    List.getD_eq_getElem (List.range w) 0 (by simpa using hxx),
    List.getElem_range]

/-- Claim C6: resize preserves the top-left overlap.  After
`resize_grid(w, h)` with positive `w`, `h` the document records the new
dimensions, every frame has exactly `h` rows of `w` columns, each cell of
the overlap rectangle keeps its previous value and every other cell holds
-1; consequently resizing back to the original dimensions reproduces the
original content inside the overlap rectangle. -/
theorem C6_resize_grid (doc : SpriteDoc) (w h : Int)
    (hw : 0 < w) (hh : 0 < h) :
    (resize_grid w h doc).width = w ∧
    (resize_grid w h doc).height = h ∧
    (resize_grid w h doc).frames.length = doc.frames.length ∧
    (∀ fi, fi < doc.frames.length →
      ((resize_grid w h doc).frames.getD fi ⟨[]⟩).pixels.length = h.toNat ∧
      (∀ row ∈ ((resize_grid w h doc).frames.getD fi ⟨[]⟩).pixels,
        row.length = w.toNat) ∧
      (∀ yy xx, yy < h.toNat → xx < w.toNat →
        getCell ((resize_grid w h doc).frames.getD fi ⟨[]⟩).pixels xx yy
          = if yy < min h.toNat doc.height.toNat ∧
              xx < min w.toNat doc.width.toNat
            then getCell (doc.frames.getD fi ⟨[]⟩).pixels xx yy
            else -1)) ∧
    (∀ fi, fi < doc.frames.length → ∀ yy xx,
      yy < min h.toNat doc.height.toNat →
      xx < min w.toNat doc.width.toNat →
      getCell ((resize_grid doc.width doc.height
          (resize_grid w h doc)).frames.getD fi ⟨[]⟩).pixels xx yy
        = getCell (doc.frames.getD fi ⟨[]⟩).pixels xx yy) := by
  have hframe : ∀ fi, fi < doc.frames.length →
      (resize_grid w h doc).frames.getD fi ⟨[]⟩
        = ⟨resize_frame doc.width.toNat doc.height.toNat w.toNat h.toNat
            (doc.frames.getD fi ⟨[]⟩).pixels⟩ := by
    intro fi hfi
    unfold resize_grid
    exact getD_map_of_lt _ doc.frames fi hfi (⟨[]⟩ : SpriteFrame)
      (⟨[]⟩ : SpriteFrame)
  refine ⟨rfl, rfl, by simp [resize_grid], ?_, ?_⟩
  · intro fi hfi
    rw [hframe fi hfi]
    refine ⟨resize_frame_length _ _ _ _ _, resize_frame_rows _ _ _ _ _, ?_⟩
    intro yy xx hyy hxx
    exact resize_frame_getCell _ _ _ _ _ xx yy hxx hyy
  · intro fi hfi yy xx hyy hxx
    have hlen : fi < (resize_grid w h doc).frames.length := by
      simpa [resize_grid] using hfi
    have hframe2 : (resize_grid doc.width doc.height
        (resize_grid w h doc)).frames.getD fi ⟨[]⟩
        = ⟨resize_frame w.toNat h.toNat doc.width.toNat doc.height.toNat
            ((resize_grid w h doc).frames.getD fi ⟨[]⟩).pixels⟩ := by
      unfold resize_grid
      exact getD_map_of_lt _ _ fi (by simpa [resize_grid] using hfi)
        (⟨[]⟩ : SpriteFrame) (⟨[]⟩ : SpriteFrame)
    rw [hframe2]
    rw [resize_frame_getCell _ _ _ _ _ xx yy (by omega) (by omega)]
    rw [if_pos ⟨by omega, by omega⟩]
    rw [hframe fi hfi]
    rw [resize_frame_getCell _ _ _ _ _ xx yy (by omega) (by omega)]
    rw [if_pos ⟨by omega, by omega⟩]

/-- Witness for C6: resizing a 1×1 document up to 2×2 yields a 2-row
frame. -/
theorem C6_resize_grid_witness :
    ((resize_grid 2 2 ({ width := 1, height := 1, palette := [], frames := [⟨[[5]]⟩] } : SpriteDoc)).frames.getD 0
      ⟨[]⟩).pixels.length = 2 :=
  ((C6_resize_grid ({ width := 1, height := 1, palette := [], frames := [⟨[[5]]⟩] } : SpriteDoc) 2 2 (by decide) (by decide)).2.2.2.1
    0 (by decide)).1

/-- Claim C8: frame deletion keeps at least one frame.  With a valid
active index, deleting is a no-op when exactly one frame remains,
otherwise it removes exactly the active frame; afterwards at least one
frame remains and the active index is `max(0, previous - 1)`, a valid
index. -/
theorem C8_delete_frame (frames : List SpriteFrame) (active : Nat)
    (hact : active < frames.length) :
    (frames.length = 1 → delete_frame frames active = (frames, active)) ∧
    (1 < frames.length →
      (delete_frame frames active).1 = frames.eraseIdx active ∧
      (delete_frame frames active).1.length = frames.length - 1 ∧
      (∀ j, (hj : j < frames.length - 1) →
        (delete_frame frames active).1.getD j ⟨[]⟩
          = if j < active then frames.getD j ⟨[]⟩
            else frames.getD (j + 1) ⟨[]⟩)) ∧
    1 ≤ (delete_frame frames active).1.length ∧
    (delete_frame frames active).2 = active - 1 ∧
    (delete_frame frames active).2 < (delete_frame frames active).1.length := by
  by_cases hl : frames.length ≤ 1
  · have hone : frames.length = 1 := by omega
    have hact0 : active = 0 := by omega
    have hr : delete_frame frames active = (frames, active) := by
      unfold delete_frame
      rw [if_pos hl]
    refine ⟨fun _ => hr, fun h2 => absurd h2 (by omega), ?_, ?_, ?_⟩
    · rw [hr]; show 1 ≤ frames.length; omega
    · rw [hr]; show active = active - 1; omega
    · rw [hr]; show active < frames.length; exact hact
  · have hr : delete_frame frames active
        = (frames.eraseIdx active, active - 1) := by
      unfold delete_frame
      rw [if_neg hl]
    have hlen : (frames.eraseIdx active).length = frames.length - 1 := by
      rw [List.length_eraseIdx]
      simp [hact]
    refine ⟨fun h1 => absurd h1 (by omega), fun _ => ⟨by rw [hr], ?_, ?_⟩,
      ?_, ?_, ?_⟩
    · rw [hr]; exact hlen
    · intro j hj
      rw [hr]
      have hject : j < (frames.eraseIdx active).length := by omega
      rw [List.getD_eq_getElem _ _ hject, List.getElem_eraseIdx]
      by_cases hja : j < active
      · rw [dif_pos hja, if_pos hja, List.getD_eq_getElem _ _ (by omega)]
      · rw [dif_neg hja, if_neg hja, List.getD_eq_getElem _ _ (by omega)]
    · rw [hr]; show 1 ≤ (frames.eraseIdx active).length; rw [hlen]; omega
    · rw [hr]
    · rw [hr]
      show active - 1 < (frames.eraseIdx active).length
      rw [hlen]; omega

/-- Witness for C8: deleting the second of two frames keeps one frame. -/
theorem C8_delete_frame_witness :
    1 ≤ (delete_frame [⟨[[1]]⟩, ⟨[[2]]⟩] 1).1.length :=
  (C8_delete_frame [⟨[[1]]⟩, ⟨[[2]]⟩] 1 (by decide)).2.2.1

/-- Claim C9 counterexample: from a stopped two-frame editor, `_play_once`
leaves a pending `step` callback (once-playback active, loop flag still
clear); requesting `_play_loop` in that state is not a no-op — it sets
the guard flag and schedules a loop step while the once-step is still
pending, so both playback modes are active at once, refuting both the
mutual exclusion and the claimed guard on `_play_once`. -/
theorem C9_counterexample :
    OnceActive (play_once ⟨2, false, 0, []⟩) ∧
    ¬ LoopActive (play_once ⟨2, false, 0, []⟩) ∧
    play_loop (play_once ⟨2, false, 0, []⟩) ≠ play_once ⟨2, false, 0, []⟩ ∧
    LoopActive (play_loop (play_once ⟨2, false, 0, []⟩)) ∧
    OnceActive (play_loop (play_once ⟨2, false, 0, []⟩)) :=
  ⟨⟨0, 1, by decide⟩, by decide, by decide, by decide, ⟨0, 1, by decide⟩⟩

/-- Claim C9 (amended): only the loop player is guarded — requesting
`_play_loop` while `_is_playing` is set is a no-op (flag, active frame
and pending callbacks all unchanged); `_play_once` has no guard flag, so
a once-playback can start while a loop runs and vice versa. -/
theorem C9_play_loop_guard (s : PlayerState) (h : LoopActive s) :
    play_loop s = s := by
  unfold play_loop
  rw [if_pos (show s.is_playing = true from h)]

/-- Witness for the amended C9 at a playing two-frame state. -/
theorem C9_play_loop_guard_witness :
    play_loop ⟨2, true, 5, []⟩ = ⟨2, true, 5, []⟩ :=
  C9_play_loop_guard ⟨2, true, 5, []⟩ rfl

/-- Claim C7 counterexample: with the fps entry holding the unparsable
string "x" and the name entry holding "b", `apply_metadata` still
applies the name (and every other field) while fps keeps its old value —
the update is not atomic, and fps is not validated before mutation. -/
theorem C7_counterexample :
    pyParseInt "x" = none ∧
    (apply_metadata { meta_name := some "b", meta_fps := some "x" } { width := 16, height := 16, palette := [], frames := [], name := "a" }).name = "b" ∧
    (apply_metadata { meta_name := some "b", meta_fps := some "x" } { width := 16, height := 16, palette := [], frames := [], name := "a" }).fps = 10 ∧
    apply_metadata { meta_name := some "b", meta_fps := some "x" } { width := 16, height := 16, palette := [], frames := [], name := "a" }
      ≠ { width := 16, height := 16, palette := [], frames := [], name := "a" } :=
  ⟨by decide, by decide, by decide, by decide⟩

/-- Claim C7 (amended): `apply_metadata` applies each provided field
independently, in source order — name, author, fps, loop, tags — and
always rebuilds the properties dict from the checkbox variables; an fps
entry that fails integer parsing is skipped (warning logged) while every
other field still applies, and fps is accepted without any positivity
check. -/
theorem C7_apply_metadata_fields (p : MetadataPanel) (doc : SpriteDoc)
    (hs : p.suspend_autoapply = false) :
    apply_metadata p doc = { doc with
      name := match p.meta_name with
        | some s => py_strip s
        | none => doc.name
      author := match p.meta_author with
        | some s => py_strip s
        | none => doc.author
      fps := match p.meta_fps with
        | some s =>
          match pyParseInt s with
          | some n => n
          | none => doc.fps
        | none => doc.fps
      loop := match p.meta_loop with
        | some b => b
        | none => doc.loop
      tags := match p.meta_tags with
        | some s => some (parse_tags s)
        | none => doc.tags
      properties := some (
        [("collision", p.prop_collision.getD false),
         ("static", p.prop_static.getD false),
         ("background", p.prop_background.getD false),
         ("player", p.prop_player.getD false)]) } := by
  obtain ⟨mn, ma, mf, ml, mt, pc, ps, pb, pp, sa⟩ := p
  have hsa : sa = false := hs
  subst hsa
  unfold apply_metadata
  rw [if_neg Bool.false_ne_true]
  cases mf with
  | none => cases mn <;> cases ma <;> cases ml <;> cases mt <;> rfl
  | some s =>
    cases hps : pyParseInt s <;>
      cases mn <;> cases ma <;> cases ml <;> cases mt <;>
        simp only [hps]

/-- Witness for the amended C7: a panel providing a name and an
unparsable fps applies the stripped name, leaves fps alone and rebuilds
the properties. -/
theorem C7_apply_metadata_fields_witness :
    apply_metadata { meta_name := some " n ", meta_fps := some "abc" } { width := 1, height := 1, palette := [], frames := [] }
      = { width := 1, height := 1, palette := [], frames := [], name := "n", properties := some [("collision", false), ("static", false), ("background", false), ("player", false)] } :=
  (C7_apply_metadata_fields { meta_name := some " n ", meta_fps := some "abc" } { width := 1, height := 1, palette := [], frames := [] } rfl).trans
    (by decide)

/-- Claim C2 counterexample: a dict holding width, height and frames but
no `palette` key loads successfully — `palette` is not a required field;
it is resolved from the registry via the (defaulted) palette_name. -/
theorem C2_counterexample :
    ({ width := some 1, height := some 1, frames := some [[[0]]] } : JsonDict).palette = none ∧
    (SpriteDoc.from_json { width := some 1, height := some 1, frames := some [[[0]]] }).isSome = true :=
  ⟨rfl, by decide⟩

/-- Claim C2 (amended): `from_json` fails exactly when `width`, `height`
or `frames` is absent (a Python `KeyError`; no `MalformedDocumentError`
class exists in the code, and `palette` is optional: it is resolved from
the registry by `palette_name`, defaulting to "ProtoX 64", with the
embedded palette array — default `[]` — used only for unregistered
names); every optional field absent takes its documented default:
name "unnamed", fps 10, loop true, author "unknown", tags `[]`,
palette_name "ProtoX 64", properties all false. -/
theorem C2_from_json_required_and_defaults (d : JsonDict) :
    (SpriteDoc.from_json d = none ↔
      (d.width = none ∨ d.height = none ∨ d.frames = none)) ∧
    (∀ w h fs, d.width = some w → d.height = some h → d.frames = some fs →
      d.name = none → d.fps = none → d.loop = none → d.author = none →
      d.tags = none → d.palette_name = none → d.properties = none →
      SpriteDoc.from_json d = some
        { width := w, height := h, palette := default_palette,
          frames := fs.map (fun m => ⟨m⟩), name := "unnamed", fps := 10,
          loop := true, author := "unknown", tags := some [],
          properties := some defaultProperties,
          palette_name := "ProtoX 64" }) := by
  constructor
  · cases hw : d.width <;> cases hh : d.height <;> cases hf : d.frames <;>
      simp [SpriteDoc.from_json, hw, hh, hf]
  · intro w h fs hw hh hf hn hfps hl ha ht hpn hpr
    unfold SpriteDoc.from_json
    rw [hw, hh, hf, hn, hfps, hl, ha, ht, hpn, hpr]
    simp [PALETTES]

/-- Witness for the amended C2 at a minimal dict with only the required
keys. -/
theorem C2_from_json_required_and_defaults_witness :
    SpriteDoc.from_json { width := some 3, height := some 2, frames := some [[[0, -1]]] }
      = some
        { width := 3, height := 2, palette := default_palette,
          frames := [⟨[[0, -1]]⟩], name := "unnamed", fps := 10,
          loop := true, author := "unknown", tags := some [],
          properties := some defaultProperties,
          palette_name := "ProtoX 64" } :=
  (C2_from_json_required_and_defaults { width := some 3, height := some 2, frames := some [[[0, -1]]] }).2
    3 2 [[[0, -1]]] rfl rfl rfl rfl rfl rfl rfl rfl rfl rfl

/-- Claim C1 counterexample: a document whose embedded palette disagrees
with the registry entry for its palette_name does not round-trip —
`from_json` replaces the palette by the registry's "ProtoX 64" array —
although the document has a frame, its only cell is a valid palette
index, and its properties are fully populated. -/
theorem C1_counterexample :
    (SpriteDoc.from_json (SpriteDoc.to_json { width := 1, height := 1, palette := [[0, 0, 0, 255]], frames := [⟨[[0]]⟩], name := "s", tags := some [], properties := some defaultProperties }).toDict).map SpriteDoc.palette
        = some default_palette ∧
    default_palette ≠ [[0, 0, 0, 255]] ∧
    SpriteDoc.from_json (SpriteDoc.to_json { width := 1, height := 1, palette := [[0, 0, 0, 255]], frames := [⟨[[0]]⟩], name := "s", tags := some [], properties := some defaultProperties }).toDict
      ≠ some { width := 1, height := 1, palette := [[0, 0, 0, 255]], frames := [⟨[[0]]⟩], name := "s", tags := some [], properties := some defaultProperties } ∧
    ({ width := 1, height := 1, palette := [[0, 0, 0, 255]], frames := [⟨[[0]]⟩], name := "s", tags := some [], properties := some defaultProperties } : SpriteDoc).frames ≠ [] ∧
    getCell (({ width := 1, height := 1, palette := [[0, 0, 0, 255]], frames := [⟨[[0]]⟩], name := "s", tags := some [], properties := some defaultProperties } : SpriteDoc).frames.getD 0 ⟨[]⟩).pixels 0 0 = 0 ∧
    ({ width := 1, height := 1, palette := [[0, 0, 0, 255]], frames := [⟨[[0]]⟩], name := "s", tags := some [], properties := some defaultProperties } : SpriteDoc).palette.length = 1 ∧
    ({ width := 1, height := 1, palette := [[0, 0, 0, 255]], frames := [⟨[[0]]⟩], name := "s", tags := some [], properties := some defaultProperties } : SpriteDoc).properties = some defaultProperties :=
  ⟨by decide, by decide, by decide, by decide, by decide, by decide, by decide⟩

/-- Claim C1 (amended): serialization round-trips exactly — producing the
document itself — for every document with at least one frame, valid
palette indices and fully populated properties, PROVIDED additionally
that its tags field is an actual list (not the dataclass `None` default)
and its embedded palette agrees with the registry entry for its
palette_name whenever that name is registered (unregistered names fall
back to the embedded palette, which round-trips as stored). -/
theorem C1_roundtrip (doc : SpriteDoc)
    (hframes : doc.frames ≠ [])
    (hcells : ∀ f ∈ doc.frames, ∀ row ∈ f.pixels, ∀ v ∈ row,
      v = -1 ∨ (0 ≤ v ∧ v < (doc.palette.length : Int)))
    (hprops : ∃ ps, doc.properties = some ps ∧
      (ps.lookup "collision").isSome = true ∧
      (ps.lookup "static").isSome = true ∧
      (ps.lookup "background").isSome = true ∧
      (ps.lookup "player").isSome = true)
    (htags : ∃ ts, doc.tags = some ts)
    (hpal : ∀ p, PALETTES doc.palette_name = some p → doc.palette = p) :
    SpriteDoc.from_json (SpriteDoc.to_json doc).toDict = some doc := by
  obtain ⟨W, H, pal, frs, nm, fp, lp, au, tg, pr, pn⟩ := doc
  obtain ⟨ps, hps, -⟩ := hprops
  obtain ⟨ts, hts⟩ := htags
  have hps' : pr = some ps := hps
  have hts' : tg = some ts := hts
  subst hps'
  subst hts'
  have hmapid : List.map ((fun m => (⟨m⟩ : SpriteFrame)) ∘ SpriteFrame.pixels)
      frs = frs :=
    List.map_id frs
  unfold SpriteDoc.from_json SpriteDoc.to_json SpriteJson.toDict
  simp only [Option.getD_some, List.map_map]
  cases hp : PALETTES pn with
  | none => simp [hmapid]
  | some p =>
    have hpp : pal = p := hpal p hp
    subst hpp
    simp [hmapid]

/-- Witness for the amended C1 at a one-frame document with an
unregistered palette name. -/
theorem C1_roundtrip_witness :
    SpriteDoc.from_json (SpriteDoc.to_json { width := 1, height := 1, palette := [[0, 0, 0, 255]], frames := [⟨[[0]]⟩], name := "s", tags := some [], properties := some defaultProperties, palette_name := "mine" }).toDict
      = some { width := 1, height := 1, palette := [[0, 0, 0, 255]], frames := [⟨[[0]]⟩], name := "s", tags := some [], properties := some defaultProperties, palette_name := "mine" } :=
  C1_roundtrip { width := 1, height := 1, palette := [[0, 0, 0, 255]], frames := [⟨[[0]]⟩], name := "s", tags := some [], properties := some defaultProperties, palette_name := "mine" }
    (by decide)
    (by decide)
    ⟨defaultProperties, rfl, by decide, by decide, by decide, by decide⟩
    ⟨[], rfl⟩
    (by
      intro p hp
      have hp2 : PALETTES "mine" = some p := hp
      rw [show PALETTES "mine" = none from by decide] at hp2
      cases hp2)

end ProtoX
